import Mathlib

/-!
Verification of the Motion Segmentation & Trimming Engine
(`app/services/motion_detection_service.py` of MarB-tech/welding-detector).

The Python service is shallowly embedded: decoded video frames are lists of
grayscale pixel values (`List ℕ`), the external `cv2.cvtColor` + `cv2.GaussianBlur`
preprocessing is an abstract per-frame function `prep`, Python `int` is `ℤ`,
Python `float` arithmetic is modelled over `ℚ`, and the fallible operations
return `Except`.  The writing side effects of `trim_to_motion` are made explicit
as an `Option` trace of written frames (`none` = no output container created).
-/

namespace WeldingDetector

/-- Python `int(x)` on a rational: truncation toward zero. -/
def truncQ (q : ℚ) : ℤ := if 0 ≤ q then ⌊q⌋ else ⌈q⌉

/-- Python `round` rounds half to even (banker's rounding). -/
def roundHalfEven (q : ℚ) : ℤ :=
  if q - ⌊q⌋ < 1 / 2 then ⌊q⌋
  else if 1 / 2 < q - ⌊q⌋ then ⌊q⌋ + 1
  else if 2 ∣ ⌊q⌋ then ⌊q⌋ else ⌊q⌋ + 1

/-- Python `round(q, ndigits)` for a non-negative digit count. -/
def pyRound (ndigits : ℕ) (q : ℚ) : ℚ :=
  (roundHalfEven (q * 10 ^ ndigits) : ℚ) / 10 ^ ndigits

/-- Python `x or default` for an optional int argument: `None` and `0` are falsy. -/
def pyOrInt : Option ℤ → ℤ → ℤ
  | none, d => d
  | some v, d => if v = 0 then d else v

/-- Python `x or default` for an optional float argument: `None` and `0.0` are falsy. -/
def pyOrQ : Option ℚ → ℚ → ℚ
  | none, d => d
  | some v, d => if v = 0 then d else v

/-- `MotionSegment` dataclass (frames are Python ints, times Python floats). -/
structure MotionSegment where
  start_frame : ℤ
  end_frame : ℤ
  start_time_ms : ℚ
  end_time_ms : ℚ
  duration_ms : ℚ
deriving Repr, DecidableEq

/-- The `MotionSegment(...)` constructor call used by `_group_into_segments`. -/
def mkSegment (fps : ℚ) (s e : ℤ) : MotionSegment :=
  { start_frame := s
    end_frame := e
    start_time_ms := (s : ℚ) / fps * 1000
    end_time_ms := (e : ℚ) / fps * 1000
    duration_ms := ((e - s : ℤ) : ℚ) / fps * 1000 }

/-- `MotionAnalysisResult` dataclass. -/
structure MotionAnalysisResult where
  filename : String
  total_frames : ℕ
  fps : ℚ
  duration_seconds : ℚ
  segments : List MotionSegment
  motion_percentage : ℚ
deriving Repr, DecidableEq

/-- Constructor parameters of `MotionDetectionService.__init__` (the
`recordings_dir` field is modelled separately, with `resolve_path`). -/
structure MotionDetectionService where
  threshold : ℤ := 25
  min_area_percent : ℚ := 1 / 2
  min_segment_frames : ℤ := 5
  padding_frames : ℤ := 30
deriving Repr, DecidableEq

/-- Closing a run in `_group_into_segments`: pad, clamp to the file bounds and
keep the segment only if it is at least `min_segment_frames` long. -/
def closeRun (padding min_segment_frames total_frames : ℤ) (fps : ℚ)
    (s e : ℤ) : List MotionSegment :=
  let seg_start := max 0 (s - padding)
  let seg_end := min (total_frames - 1) (e + padding)
  if min_segment_frames ≤ seg_end - seg_start then [mkSegment fps seg_start seg_end]
  else []

/-- The run-building loop of `_group_into_segments`: a motion frame extends the
current `[s, e]` run when its gap from `e` is at most `max_gap`. -/
def groupAux (padding min_seg total : ℤ) (fps : ℚ) (max_gap : ℤ) (s e : ℤ) :
    List ℤ → List MotionSegment
  | [] => closeRun padding min_seg total fps s e
  | f :: rest =>
    if f - e ≤ max_gap then groupAux padding min_seg total fps max_gap s f rest
    else closeRun padding min_seg total fps s e ++
      groupAux padding min_seg total fps max_gap f f rest

/-- The segment-extension step of `_merge_overlapping` (`merged[-1] = MotionSegment(...)`). -/
def extendSegment (fps : ℚ) (last seg : MotionSegment) : MotionSegment :=
  { start_frame := last.start_frame
    end_frame := max last.end_frame seg.end_frame
    start_time_ms := last.start_time_ms
    end_time_ms := ((max last.end_frame seg.end_frame : ℤ) : ℚ) / fps * 1000
    duration_ms := ((max last.end_frame seg.end_frame - last.start_frame : ℤ) : ℚ) / fps * 1000 }

/-- The loop of `_merge_overlapping`, carrying `merged[-1]` explicitly. -/
def mergeAux (padding : ℤ) (fps : ℚ) (last : MotionSegment) :
    List MotionSegment → List MotionSegment
  | [] => [last]
  | seg :: rest =>
    if seg.start_frame ≤ last.end_frame + padding then
      mergeAux padding fps (extendSegment fps last seg) rest
    else
      last :: mergeAux padding fps seg rest

/-- `MotionDetectionService._merge_overlapping` (the Python `len(segments) <= 1`
early return coincides with the base cases of `mergeAux`). -/
def merge_overlapping (padding : ℤ) (fps : ℚ) : List MotionSegment → List MotionSegment
  | [] => []
  | s :: rest => mergeAux padding fps s rest

/-- `MotionDetectionService._group_into_segments`: group the motion frames into
runs (gap tolerance `int(fps * 0.5)`), pad/clamp/filter each run, then merge. -/
def group_into_segments (padding min_seg : ℤ) (motion_frames : List ℤ)
    (total_frames : ℤ) (fps : ℚ) : List MotionSegment :=
  match motion_frames with
  | [] => []
  | f :: rest =>
    merge_overlapping padding fps
      (groupAux padding min_seg total_frames fps (truncQ (fps * (1 / 2))) f f rest)

/-- `cv2.absdiff` on two grayscale images (pointwise absolute difference). -/
def absdiff (a b : List ℕ) : List ℕ :=
  List.zipWith (fun x y => max x y - min x y) a b

/-- `cv2.threshold(img, thr, 255, cv2.THRESH_BINARY)`: a pixel strictly above
the threshold maps to 255, every other pixel to 0. -/
def cvThresholdBinary (thr : ℤ) (img : List ℕ) : List ℕ :=
  img.map (fun p => if thr < (p : ℤ) then 255 else 0)

/-- `cv2.countNonZero`. -/
def countNonZero (img : List ℕ) : ℕ :=
  (img.filter (fun p => p != 0)).length

/-- The frame-differencing loop of `detect_motion`.  `prep` is the external
`cv2.GaussianBlur(cv2.cvtColor(·, COLOR_BGR2GRAY), (21, 21), 0)` preprocessing;
`prev_gray` slides forward on every analyzed frame, and the frame indices start
at 1 (index 0 is the reference frame consumed before the loop). -/
def motionLoop (prep : List ℕ → List ℕ) (thr min_changed_pixels : ℤ)
    (analyze_step : ℕ) (prev_gray : List ℕ) (frame_idx : ℕ) :
    List (List ℕ) → List ℤ
  | [] => []
  | frame :: rest =>
    if frame_idx % analyze_step = 0 then
      let gray := prep frame
      let changed := countNonZero (cvThresholdBinary thr (absdiff prev_gray gray))
      let tail := motionLoop prep thr min_changed_pixels analyze_step gray (frame_idx + 1) rest
      if min_changed_pixels ≤ (changed : ℤ) then (frame_idx : ℤ) :: tail else tail
    else
      motionLoop prep thr min_changed_pixels analyze_step prev_gray (frame_idx + 1) rest

/-- Body of `detect_motion` after the parameter-defaulting lines: the decoded
frame sequence is `frames`, the container metadata is `total_frames`/`fps0`
(`fps = cap.get(CAP_PROP_FPS) or 30.0` makes a zero fps fall back to 30). -/
def detectMotionWith (svc : MotionDetectionService) (prep : List ℕ → List ℕ)
    (frames : List (List ℕ)) (total_frames : ℕ) (fps0 : ℚ)
    (threshold : ℤ) (min_area : ℚ) (analyze_step : ℕ) (filename : String) :
    Except String MotionAnalysisResult :=
  let fps := if fps0 = 0 then (30 : ℚ) else fps0
  let duration := if 0 < fps then (total_frames : ℚ) / fps else 0
  match frames with
  | [] => Except.error "Cannot read first frame"
  | first :: rest =>
    let prev_gray := prep first
    let total_pixels : ℕ := first.length
    let min_changed_pixels : ℤ := truncQ ((total_pixels : ℚ) * min_area / 100)
    let motion_frames := motionLoop prep threshold min_changed_pixels analyze_step prev_gray 1 rest
    let segments := group_into_segments svc.padding_frames svc.min_segment_frames
      motion_frames (total_frames : ℤ) fps
    let motion_pct : ℚ :=
      if 0 < total_frames then
        (motion_frames.length : ℚ) / ((total_frames : ℚ) / (analyze_step : ℚ)) * 100
      else 0
    Except.ok
      { filename := filename
        total_frames := total_frames
        fps := fps
        duration_seconds := duration
        segments := segments
        motion_percentage := pyRound 2 motion_pct }

/-- `MotionDetectionService.detect_motion`: the two Python lines
`threshold = threshold or self.threshold` and
`min_area = min_area_percent or self.min_area_percent` resolve the optional
parameters (treating `0`/`0.0` as absent), then the body runs. -/
def detect_motion (svc : MotionDetectionService) (prep : List ℕ → List ℕ)
    (frames : List (List ℕ)) (total_frames : ℕ) (fps0 : ℚ)
    (threshold? : Option ℤ) (min_area_percent? : Option ℚ) (analyze_step : ℕ)
    (filename : String) : Except String MotionAnalysisResult :=
  detectMotionWith svc prep frames total_frames fps0
    (pyOrInt threshold? svc.threshold) (pyOrQ min_area_percent? svc.min_area_percent)
    analyze_step filename

/-- Following the spec's words ("Supplied per call or defaulted from
process-wide configuration"): the service defaults are used only when the
corresponding parameter is not supplied, so an explicit `0` is used as given.
Stated for comparison with `detect_motion`, which uses Python `or`. -/
def detectMotionSpecResolution (svc : MotionDetectionService) (prep : List ℕ → List ℕ)
    (frames : List (List ℕ)) (total_frames : ℕ) (fps0 : ℚ)
    (threshold? : Option ℤ) (min_area_percent? : Option ℚ) (analyze_step : ℕ)
    (filename : String) : Except String MotionAnalysisResult :=
  detectMotionWith svc prep frames total_frames fps0
    (threshold?.getD svc.threshold) (min_area_percent?.getD svc.min_area_percent)
    analyze_step filename

/-- The number of loop iterations of `detect_motion` that analyze a frame
(the claims' "frames actually analyzed"): indices `1 … numFrames - 1` that are
multiples of the analysis stride. -/
def analyzedFrameCount (analyze_step numFrames : ℕ) : ℕ :=
  ((List.range' 1 (numFrames - 1)).filter (fun i => i % analyze_step == 0)).length

/-- The outcome dictionary of `trim_to_motion`: either the early
`status = "no_motion"` dictionary or the `status = "completed"` one. -/
inductive TrimOutcome where
  | no_motion (filename message : String)
  | completed (segments_count frames_written : ℕ)
      (duration_seconds original_size_mb output_size_mb reduction_percent : ℚ)
deriving Repr, DecidableEq

/-- The per-segment writing loop: after `cap.set(CAP_PROP_POS_FRAMES, pos)` the
trimmer reads up to `n` frames sequentially, stopping early (`break`) when the
stream ends. -/
def readFramesAt (frames : List (List ℕ)) (pos : ℕ) : ℕ → List (List ℕ)
  | 0 => []
  | n + 1 =>
    match frames[pos]? with
    | none => []
    | some f => f :: readFramesAt frames (pos + 1) n

/-- Frames written by the trimming loop of `trim_to_motion`, segment by segment. -/
def writeSegments (frames : List (List ℕ)) : List MotionSegment → List (List ℕ)
  | [] => []
  | seg :: rest =>
    readFramesAt frames seg.start_frame.toNat (seg.end_frame - seg.start_frame + 1).toNat ++
      writeSegments frames rest

/-- Python `max(segments, key=lambda s: s.duration_ms)`: first maximal element. -/
def pyMaxByDuration (s0 : MotionSegment) : List MotionSegment → MotionSegment
  | [] => s0
  | s :: rest =>
    if s0.duration_ms < s.duration_ms then pyMaxByDuration s rest
    else pyMaxByDuration s0 rest

/-- `MotionDetectionService.trim_to_motion`.  The analysis runs first (with the
default `analyze_step = 1`); an empty segment list short-circuits with the
`no_motion` dictionary before any output container is created.  The second
component of the returned pair is the write effect: `none` means the
`cv2.VideoWriter` was never constructed and no output file exists, `some ws`
means a container was created and the frames `ws` were written to it.  The
on-disk sizes `original_size_mb`/`output_size_mb` are produced by the external
filesystem/encoder and enter as parameters. -/
def trim_to_motion (svc : MotionDetectionService) (prep : List ℕ → List ℕ)
    (frames : List (List ℕ)) (total_frames : ℕ) (fps0 : ℚ)
    (threshold? : Option ℤ) (min_area_percent? : Option ℚ)
    (include_all_segments : Bool) (original_size output_size : ℚ)
    (filename : String) :
    Except String (TrimOutcome × Option (List (List ℕ))) :=
  match detect_motion svc prep frames total_frames fps0 threshold? min_area_percent? 1 filename with
  | Except.error e => Except.error e
  | Except.ok analysis =>
    if analysis.segments.isEmpty then
      Except.ok (TrimOutcome.no_motion filename "No motion segments detected", none)
    else
      let segments :=
        if include_all_segments then analysis.segments
        else match analysis.segments with
          | [] => []
          | s :: rest => [pyMaxByDuration s rest]
      let fps := if fps0 = 0 then (30 : ℚ) else fps0
      let written := writeSegments frames segments
      let frames_written := written.length
      Except.ok
        (TrimOutcome.completed segments.length frames_written
          (pyRound 2 ((frames_written : ℚ) / fps))
          (pyRound 2 original_size) (pyRound 2 output_size)
          (if 0 < original_size then pyRound 1 ((1 - output_size / original_size) * 100) else 0),
         some written)

/-- Projection used to state concrete facts about a trim outcome. -/
def reductionOf : Except String (TrimOutcome × Option (List (List ℕ))) → ℚ
  | Except.ok (TrimOutcome.completed _ _ _ _ _ r, _) => r
  | _ => 0

/-- Projection: did the call finish with `status = "completed"`? -/
def isCompleted : Except String (TrimOutcome × Option (List (List ℕ))) → Bool
  | Except.ok (TrimOutcome.completed _ _ _ _ _ _, _) => true
  | _ => false

/-- Projection used to state concrete facts about a detection outcome. -/
def pctOf : Except String MotionAnalysisResult → ℚ
  | Except.ok r => r.motion_percentage
  | Except.error _ => -1

/-- `pathlib.Path` reduced to what `_resolve_path` inspects: absoluteness and
the component list. -/
structure PyPath where
  is_absolute : Bool
  parts : List String
deriving Repr, DecidableEq

/-- `pathlib`'s `/` operator: an absolute right operand replaces the left one. -/
def joinPath (a b : PyPath) : PyPath :=
  if b.is_absolute then b else ⟨a.is_absolute, a.parts ++ b.parts⟩

/-- `MotionDetectionService._resolve_path`; `exists_fn` is the filesystem's
`Path.exists` (relative paths are checked against the process working
directory). -/
def resolve_path (exists_fn : PyPath → Bool) (recordings_dir p : PyPath) : PyPath :=
  if p.is_absolute || exists_fn p then p else joinPath recordings_dir p

/-- Error taxonomy of the spec for the post-processing extraction:
`NoBrightRegionFound` is a domain error distinct from `NotFound`/`DecodeError`. -/
inductive VideoError where
  | NotFound
  | DecodeError
  | NoBrightRegionFound
deriving Repr, DecidableEq

/-- Modelled from the spec: the per-frame brightness test of the
`BrightnessCutFinder` (§4.3), whose implementation (`trim_to_post_processing`,
called from `routes.py`, and `detect_welding_process`, referenced by the tests)
is absent from the source tree.  A frame is "bright" if its fraction of pixels
above `brightness_threshold` exceeds `min_bright_percent`. -/
def is_bright_frame (brightness_threshold : ℤ) (min_bright_percent : ℚ)
    (f : List ℕ) : Bool :=
  decide (min_bright_percent * (f.length : ℚ) <
    ((f.filter (fun p => decide (brightness_threshold < (p : ℤ)))).length : ℚ) * 100)

/-- Modelled from the spec: indices of the bright frames, in scan order. -/
def brightIndicesAux (bt : ℤ) (mbp : ℚ) (idx : ℕ) : List (List ℕ) → List ℕ
  | [] => []
  | f :: rest =>
    if is_bright_frame bt mbp f then idx :: brightIndicesAux bt mbp (idx + 1) rest
    else brightIndicesAux bt mbp (idx + 1) rest

/-- Modelled from the spec: indices of the bright frames of a video. -/
def bright_indices (bt : ℤ) (mbp : ℚ) (frames : List (List ℕ)) : List ℕ :=
  brightIndicesAux bt mbp 0 frames

/-- Modelled from the spec: last bright index of the leading bright region,
tolerating up to `gap_tolerance` dim frames between consecutive bright frames. -/
def regionEnd (gap_tolerance cur : ℕ) : List ℕ → ℕ
  | [] => cur
  | i :: rest =>
    if i ≤ cur + gap_tolerance + 1 then regionEnd gap_tolerance i rest else cur

/-- Modelled from the spec: `find_post_processing_start` of the
`BrightnessCutFinder` (§4.3) — the first frame index after the sustained bright
(welding-arc) region ends, or `none` when no bright frame exists. -/
def find_post_processing_start (bt : ℤ) (mbp : ℚ) (gap_tolerance : ℕ)
    (frames : List (List ℕ)) : Option ℕ :=
  match bright_indices bt mbp frames with
  | [] => none
  | i :: rest => some (regionEnd gap_tolerance i rest + 1)

/-- Modelled from the spec: `trim_to_post_processing` (§4.3, §7) — keeps the
frames from the cut point on, and reports `NoBrightRegionFound` as a domain
error instead of silently copying the whole video. -/
def trim_to_post_processing (bt : ℤ) (mbp : ℚ) (gap_tolerance : ℕ)
    (frames : List (List ℕ)) : Except VideoError (ℕ × List (List ℕ)) :=
  match find_post_processing_start bt mbp gap_tolerance frames with
  | none => Except.error VideoError.NoBrightRegionFound
  | some c => Except.ok (c, frames.drop c)

/-! ### Helper lemmas about the merge pass -/

/-- A segment lies inside the file: clamped to `[0, total - 1]` and non-empty. -/
def InBounds (total : ℤ) (s : MotionSegment) : Prop :=
  0 ≤ s.start_frame ∧ s.start_frame ≤ s.end_frame ∧ s.end_frame ≤ total - 1

theorem mergeAux_exists_head (padding : ℤ) (fps : ℚ) :
    ∀ (rest : List MotionSegment) (last : MotionSegment),
      ∃ hd tl, mergeAux padding fps last rest = hd :: tl ∧
        hd.start_frame = last.start_frame := by
  intro rest
  induction rest with
  | nil => intro last; exact ⟨last, [], rfl, rfl⟩
  | cons seg rest ih =>
    intro last
    by_cases h : seg.start_frame ≤ last.end_frame + padding
    · obtain ⟨hd, tl, heq, hst⟩ := ih (extendSegment fps last seg)
      refine ⟨hd, tl, ?_, ?_⟩
      · simp [mergeAux, h, heq]
      · simpa [extendSegment] using hst
    · exact ⟨last, mergeAux padding fps seg rest, by simp [mergeAux, h], rfl⟩

theorem mergeAux_chain (padding : ℤ) (fps : ℚ) :
    ∀ (rest : List MotionSegment) (last : MotionSegment),
      List.Chain' (fun a b => a.end_frame + padding < b.start_frame)
        (mergeAux padding fps last rest) := by
  intro rest
  induction rest with
  | nil => intro last; simp [mergeAux]
  | cons seg rest ih =>
    intro last
    by_cases h : seg.start_frame ≤ last.end_frame + padding
    · simpa [mergeAux, h] using ih (extendSegment fps last seg)
    · obtain ⟨hd, tl, heq, hst⟩ := mergeAux_exists_head padding fps rest seg
      have hchain := ih seg
      rw [heq] at hchain
      have hne : last.end_frame + padding < hd.start_frame := by
        rw [hst]; exact lt_of_not_le h
      simp only [mergeAux, if_neg h, heq]
      exact List.chain'_cons.mpr ⟨hne, hchain⟩

theorem mergeAux_of_chain (padding : ℤ) (fps : ℚ) :
    ∀ (rest : List MotionSegment) (last : MotionSegment),
      List.Chain' (fun a b => a.end_frame + padding < b.start_frame) (last :: rest) →
      mergeAux padding fps last rest = last :: rest := by
  intro rest
  induction rest with
  | nil => intro last _; rfl
  | cons seg rest ih =>
    intro last hchain
    rw [List.chain'_cons] at hchain
    have h : ¬seg.start_frame ≤ last.end_frame + padding := not_le.mpr hchain.1
    simp [mergeAux, h, ih seg hchain.2]

theorem extendSegment_inBounds {total : ℤ} (fps : ℚ) {last seg : MotionSegment}
    (h1 : InBounds total last) (h2 : InBounds total seg) :
    InBounds total (extendSegment fps last seg) := by
  obtain ⟨a1, a2, a3⟩ := h1
  obtain ⟨_, _, b3⟩ := h2
  refine ⟨a1, ?_, ?_⟩ <;> simp only [extendSegment] <;> omega

theorem mergeAux_inBounds {padding total : ℤ} (fps : ℚ) :
    ∀ (rest : List MotionSegment) (last : MotionSegment),
      InBounds total last → (∀ s ∈ rest, InBounds total s) →
      ∀ s ∈ mergeAux padding fps last rest, InBounds total s := by
  intro rest
  induction rest with
  | nil =>
    intro last hl _ s hs
    simp only [mergeAux, List.mem_singleton] at hs
    exact hs ▸ hl
  | cons seg rest ih =>
    intro last hl hrest s hs
    have hseg : InBounds total seg := hrest seg (List.mem_cons_self seg rest)
    have hrest' : ∀ x ∈ rest, InBounds total x :=
      fun x hx => hrest x (List.mem_cons_of_mem seg hx)
    simp only [mergeAux] at hs
    split at hs
    · exact ih (extendSegment fps last seg) (extendSegment_inBounds fps hl hseg) hrest' s hs
    · rcases List.mem_cons.mp hs with h | h
      · exact h ▸ hl
      · exact ih seg hseg hrest' s h

theorem closeRun_inBounds {padding min_seg total : ℤ} (fps : ℚ)
    (hmin : 0 ≤ min_seg) (a b : ℤ) :
    ∀ s ∈ closeRun padding min_seg total fps a b, InBounds total s := by
  intro s hs
  simp only [closeRun] at hs
  split at hs
  · next hkeep =>
    simp only [List.mem_singleton] at hs
    subst hs
    refine ⟨le_max_left 0 _, ?_, min_le_left _ _⟩
    simp only [mkSegment]
    omega
  · simp at hs

theorem groupAux_inBounds {padding min_seg total : ℤ} (fps : ℚ) (mg : ℤ)
    (hmin : 0 ≤ min_seg) :
    ∀ (l : List ℤ) (a b : ℤ),
      ∀ s ∈ groupAux padding min_seg total fps mg a b l, InBounds total s := by
  intro l
  induction l with
  | nil => intro a b s hs; exact closeRun_inBounds fps hmin a b s hs
  | cons f rest ih =>
    intro a b s hs
    simp only [groupAux] at hs
    split at hs
    · exact ih a f s hs
    · rcases List.mem_append.mp hs with h | h
      · exact closeRun_inBounds fps hmin a b s h
      · exact ih f f s h

theorem chainStrengthen {padding total : ℤ} (hpad : 0 ≤ padding) :
    ∀ (l : List MotionSegment),
      List.Chain' (fun a b => a.end_frame + padding < b.start_frame) l →
      (∀ s ∈ l, InBounds total s) →
      List.Chain' (fun a b => a.start_frame < b.start_frame ∧ a.end_frame < b.start_frame) l := by
  intro l
  induction l with
  | nil => intro _ _; exact List.chain'_nil
  | cons a t ih =>
    intro hc hm
    cases t with
    | nil => simp
    | cons b t' =>
      rw [List.chain'_cons] at hc ⊢
      obtain ⟨hab, hc'⟩ := hc
      have ha := hm a (List.mem_cons_self a _)
      obtain ⟨_, ha2, _⟩ := ha
      exact ⟨⟨by omega, by omega⟩, ih hc' (fun s hs => hm s (List.mem_cons_of_mem a hs))⟩

theorem chainToPairwise {l : List MotionSegment}
    (h : List.Chain' (fun a b => a.start_frame < b.start_frame ∧ a.end_frame < b.start_frame) l) :
    List.Pairwise (fun a b => a.start_frame < b.start_frame ∧ a.end_frame < b.start_frame) l := by
  haveI : IsTrans MotionSegment
      (fun a b => a.start_frame < b.start_frame ∧ a.end_frame < b.start_frame) :=
    ⟨fun _ _ _ hab hbc => ⟨hab.1.trans hbc.1, hab.2.trans hbc.1⟩⟩
  exact List.chain'_iff_pairwise.mp h

/-! ### C9 and C1 -/

/-- C9: the merge pass is idempotent — applying `_merge_overlapping` to its own
output (for the same service padding and fps) returns the identical list. -/
theorem c9_merge_idempotent (padding : ℤ) (fps : ℚ) (segments : List MotionSegment) :
    merge_overlapping padding fps (merge_overlapping padding fps segments) =
      merge_overlapping padding fps segments := by
  cases segments with
  | nil => rfl
  | cons s rest =>
    obtain ⟨hd, tl, heq, _⟩ := mergeAux_exists_head padding fps rest s
    have hchain := mergeAux_chain padding fps rest s
    rw [heq] at hchain
    show merge_overlapping padding fps (mergeAux padding fps s rest) = mergeAux padding fps s rest
    rw [heq]
    show mergeAux padding fps hd tl = hd :: tl
    exact mergeAux_of_chain padding fps tl hd hchain

/-- C1: for a sorted motion-frame list, `total_frames ≥ 1`, `fps > 0` and
non-negative padding/minimum-length configuration, the segment builder
(grouping followed by merging) returns a list that is strictly sorted by
`start_frame`, pairwise strictly non-overlapping
(`a.end_frame < b.start_frame` for every earlier segment `a`), and whose
segments all satisfy `0 ≤ start_frame ≤ end_frame ≤ total_frames - 1`. -/
theorem c1_segment_invariants (svc : MotionDetectionService)
    (motion_frames : List ℤ) (total_frames : ℤ) (fps : ℚ)
    (hsorted : List.Sorted (· ≤ ·) motion_frames)
    (htot : 1 ≤ total_frames) (hfps : 0 < fps)
    (hpad : 0 ≤ svc.padding_frames) (hmin : 0 ≤ svc.min_segment_frames) :
    List.Pairwise (fun a b => a.start_frame < b.start_frame ∧ a.end_frame < b.start_frame)
      (group_into_segments svc.padding_frames svc.min_segment_frames motion_frames
        total_frames fps) ∧
    ∀ s ∈ group_into_segments svc.padding_frames svc.min_segment_frames motion_frames
        total_frames fps,
      0 ≤ s.start_frame ∧ s.start_frame ≤ s.end_frame ∧ s.end_frame ≤ total_frames - 1 := by
  cases motion_frames with
  | nil => simp [group_into_segments]
  | cons f rest =>
    have hbounds : ∀ s ∈ groupAux svc.padding_frames svc.min_segment_frames total_frames fps
        (truncQ (fps * (1 / 2))) f f rest, InBounds total_frames s :=
      fun s hs => groupAux_inBounds fps _ hmin rest f f s hs
    show List.Pairwise _ (merge_overlapping svc.padding_frames fps _) ∧
      ∀ s ∈ merge_overlapping svc.padding_frames fps _, _
    cases hgs : groupAux svc.padding_frames svc.min_segment_frames total_frames fps
        (truncQ (fps * (1 / 2))) f f rest with
    | nil => simp [merge_overlapping]
    | cons g gs =>
      rw [hgs] at hbounds
      have hg : InBounds total_frames g := hbounds g (List.mem_cons_self g gs)
      have hgs' : ∀ s ∈ gs, InBounds total_frames s :=
        fun s hs => hbounds s (List.mem_cons_of_mem g hs)
      have hmergeB : ∀ s ∈ mergeAux svc.padding_frames fps g gs, InBounds total_frames s :=
        mergeAux_inBounds fps gs g hg hgs'
      have hchain := mergeAux_chain svc.padding_frames fps gs g
      have hstrong := chainStrengthen hpad _ hchain hmergeB
      exact ⟨chainToPairwise hstrong, fun s hs => hmergeB s hs⟩

/-! ### Helper lemmas about Python rounding -/

theorem le_roundHalfEven (q : ℚ) : q - 1 / 2 ≤ (roundHalfEven q : ℚ) := by
  have hf : (⌊q⌋ : ℚ) ≤ q := Int.floor_le q
  have hc : q < ⌊q⌋ + 1 := Int.lt_floor_add_one q
  unfold roundHalfEven
  split_ifs with h1 h2 h3 <;> push_cast <;> linarith

theorem roundHalfEven_le (q : ℚ) : (roundHalfEven q : ℚ) ≤ q + 1 / 2 := by
  have hf : (⌊q⌋ : ℚ) ≤ q := Int.floor_le q
  have hc : q < ⌊q⌋ + 1 := Int.lt_floor_add_one q
  unfold roundHalfEven
  split_ifs with h1 h2 h3 <;> push_cast <;> linarith

theorem pyRound_zero (n : ℕ) : pyRound n 0 = 0 := by
  have h : roundHalfEven 0 = 0 := by norm_num [roundHalfEven]
  simp [pyRound, h]

theorem pyRound_nonneg (n : ℕ) (q : ℚ) (h : 0 ≤ q) : 0 ≤ pyRound n q := by
  unfold pyRound
  have hx : (0 : ℚ) ≤ q * 10 ^ n := by positivity
  have hlow := le_roundHalfEven (q * 10 ^ n)
  have hZ : 0 ≤ roundHalfEven (q * 10 ^ n) := by
    by_contra hcon
    push_neg at hcon
    have h1 : roundHalfEven (q * 10 ^ n) ≤ -1 := by omega
    have h2 : (roundHalfEven (q * 10 ^ n) : ℚ) ≤ -1 := by exact_mod_cast h1
    linarith
  have : (0 : ℚ) ≤ (roundHalfEven (q * 10 ^ n) : ℚ) := by exact_mod_cast hZ
  positivity

theorem pyRound2_le_100 (q : ℚ) (h : q ≤ 100) : pyRound 2 q ≤ 100 := by
  have hup := roundHalfEven_le (q * 100)
  have h1 : (roundHalfEven (q * 100) : ℚ) < ((10001 : ℤ) : ℚ) := by push_cast; linarith
  have h2 : roundHalfEven (q * 100) < 10001 := by exact_mod_cast h1
  have hZ : roundHalfEven (q * 100) ≤ 10000 := by omega
  have hc : (roundHalfEven (q * 100) : ℚ) ≤ 10000 := by exact_mod_cast hZ
  have e : pyRound 2 q = (roundHalfEven (q * 100) : ℚ) / 100 := by norm_num [pyRound]
  rw [e]
  linarith

/-! ### C3: zero- and one-frame videos -/

/-- C3 counterexample: `detect_motion` on an openable video with zero decodable
frames does not return normally with an empty motion list — it raises
`ValueError("Cannot read first frame")`. -/
theorem c3_counterexample :
    detect_motion {} id [] 0 30 none none 1 "rec.mp4" =
      Except.error "Cannot read first frame" := rfl

/-- C3 amended: a video with exactly one decodable frame yields an empty
motion-frame list, hence an empty segment list and a zero motion percentage,
without error; a video with zero decodable frames instead raises the error
`"Cannot read first frame"`. -/
theorem c3_amended (svc : MotionDetectionService) (prep : List ℕ → List ℕ)
    (f : List ℕ) (total : ℕ) (fps0 : ℚ) (t? : Option ℤ) (m? : Option ℚ)
    (step : ℕ) (name : String) :
    detect_motion svc prep [] total fps0 t? m? step name =
      Except.error "Cannot read first frame" ∧
    ∃ r, detect_motion svc prep [f] total fps0 t? m? step name = Except.ok r ∧
      r.segments = [] ∧ r.motion_percentage = 0 := by
  refine ⟨rfl, ⟨_, rfl, rfl, ?_⟩⟩
  show pyRound 2 (if 0 < total then
    ((motionLoop prep (pyOrInt t? svc.threshold)
        (truncQ ((f.length : ℚ) * pyOrQ m? svc.min_area_percent / 100))
        step (prep f) 1 []).length : ℚ) / ((total : ℚ) / (step : ℚ)) * 100
    else 0) = 0
  simp [motionLoop, pyRound_zero]

/-! ### C4: motion percentage -/

/-- C4 counterexample: a two-frame video whose second frame is flagged as
motion.  Exactly one frame is analyzed and it is flagged, so the claimed value
is `100 * 1 / 1 = 100`, but `detect_motion` divides by
`total_frames / analyze_step = 2` and reports `50`. -/
theorem c4_counterexample :
    pctOf (detect_motion {} id [[0], [255]] 2 30 none none 1 "v") = 50 ∧
    (motionLoop id 25 0 1 [0] 1 [[255]]).length = 1 ∧
    analyzedFrameCount 1 2 = 1 ∧
    (50 : ℚ) ≠ 100 * (1 : ℚ) / (1 : ℚ) :=
  ⟨by with_unfolding_all rfl, rfl, rfl, by norm_num⟩

theorem motionLoop_length_le (prep : List ℕ → List ℕ) (thr mc : ℤ) (step : ℕ) :
    ∀ (fs : List (List ℕ)) (pg : List ℕ) (idx : ℕ),
      (motionLoop prep thr mc step pg idx fs).length ≤
        ((List.range' idx fs.length).filter (fun i => i % step == 0)).length := by
  intro fs
  induction fs with
  | nil => intro pg idx; simp [motionLoop]
  | cons f rest ih =>
    intro pg idx
    rw [List.length_cons, List.range'_succ, List.filter_cons]
    simp only [motionLoop]
    by_cases hm : idx % step = 0
    · have hb : (idx % step == 0) = true := by simpa using hm
      rw [if_pos hm, hb, if_pos rfl]
      split
      · simpa using Nat.succ_le_succ (ih (prep f) (idx + 1))
      · exact le_trans (ih (prep f) (idx + 1)) (by simp)
    · have hb : (idx % step == 0) = false := by simpa using hm
      rw [if_neg hm, hb]
      simpa using ih pg (idx + 1)

theorem count_multiples (step : ℕ) :
    ∀ n, ((List.range' 1 n).filter (fun i => i % step == 0)).length = n / step := by
  intro n
  induction n with
  | zero => simp
  | succ n ih =>
    have hcat : List.range' 1 (n + 1) = List.range' 1 n ++ [1 + n] := by
      simpa using @List.range'_concat 1 1 n
    rw [hcat, List.filter_append, List.length_append, ih, Nat.succ_div]
    by_cases hd : step ∣ n + 1
    · have hmod : (1 + n) % step = 0 := by
        rw [Nat.add_comm 1 n]
        exact Nat.dvd_iff_mod_eq_zero.mp hd
      simp [hmod, hd]
    · have hmod : (1 + n) % step ≠ 0 := by
        rw [Nat.add_comm 1 n]
        exact fun hc => hd (Nat.dvd_iff_mod_eq_zero.mpr hc)
      simp [hmod, hd]

/-- C4 amended: for any successfully analyzed video (at least one decodable
frame, metadata frame count equal to the decoded frame count, positive stride)
the reported `motion_percentage` is `round(count / (total_frames /
analyze_step) * 100, 2)` — the denominator is `total_frames / analyze_step`,
not the number of frames actually analyzed — and the value lies in `[0, 100]`. -/
theorem c4_amended (svc : MotionDetectionService) (prep : List ℕ → List ℕ)
    (f : List ℕ) (rest : List (List ℕ)) (total : ℕ) (fps0 : ℚ)
    (t? : Option ℤ) (m? : Option ℚ) (step : ℕ) (name : String)
    (hlen : (f :: rest).length = total) (hstep : 0 < step) :
    ∃ r, detect_motion svc prep (f :: rest) total fps0 t? m? step name = Except.ok r ∧
      r.motion_percentage =
        pyRound 2 (((motionLoop prep (pyOrInt t? svc.threshold)
            (truncQ ((f.length : ℚ) * pyOrQ m? svc.min_area_percent / 100))
            step (prep f) 1 rest).length : ℚ) / ((total : ℚ) / (step : ℚ)) * 100) ∧
      0 ≤ r.motion_percentage ∧ r.motion_percentage ≤ 100 := by
  have htpos : 0 < total := by
    rw [← hlen]
    exact Nat.succ_pos _
  have hrl : rest.length + 1 = total := by simpa using hlen
  set cnt := (motionLoop prep (pyOrInt t? svc.threshold)
      (truncQ ((f.length : ℚ) * pyOrQ m? svc.min_area_percent / 100))
      step (prep f) 1 rest).length with hcntdef
  have hcnt : cnt ≤ rest.length / step :=
    le_of_le_of_eq (motionLoop_length_le prep _ _ step rest (prep f) 1)
      (count_multiples step rest.length)
  have hcs : cnt * step ≤ rest.length := (Nat.le_div_iff_mul_le hstep).mp hcnt
  have hstepq : (0 : ℚ) < step := by exact_mod_cast hstep
  have htq : (0 : ℚ) < total := by exact_mod_cast htpos
  have hq : (cnt : ℚ) * step ≤ (total : ℚ) - 1 := by
    have h1 : ((cnt * step : ℕ) : ℚ) ≤ (rest.length : ℚ) := by exact_mod_cast hcs
    have h2 : ((rest.length : ℚ)) = (total : ℚ) - 1 := by
      have h3 : ((rest.length + 1 : ℕ) : ℚ) = (total : ℚ) := by exact_mod_cast hrl
      push_cast at h3
      linarith
    push_cast at h1
    linarith
  have hpct0 : 0 ≤ (cnt : ℚ) / ((total : ℚ) / (step : ℚ)) * 100 := by positivity
  have hpct100 : (cnt : ℚ) / ((total : ℚ) / (step : ℚ)) * 100 ≤ 100 := by
    rw [div_div_eq_mul_div, div_mul_eq_mul_div, div_le_iff₀ htq]
    nlinarith
  refine ⟨_, rfl, ?_, ?_, ?_⟩
  · show pyRound 2 (if 0 < total then
        (cnt : ℚ) / ((total : ℚ) / (step : ℚ)) * 100 else 0) = _
    rw [if_pos htpos]
  · show 0 ≤ pyRound 2 (if 0 < total then
        (cnt : ℚ) / ((total : ℚ) / (step : ℚ)) * 100 else 0)
    rw [if_pos htpos]
    exact pyRound_nonneg 2 _ hpct0
  · show pyRound 2 (if 0 < total then
        (cnt : ℚ) / ((total : ℚ) / (step : ℚ)) * 100 else 0) ≤ 100
    rw [if_pos htpos]
    exact pyRound2_le_100 _ hpct100

/-- Witness for the amended C4 at a concrete input: a 2-frame video with one
flagged frame reports `motion_percentage = 50 ∈ [0, 100]`. -/
theorem c4_amended_witness :
    ∃ r, detect_motion {} id [[0], [255]] 2 30 none none 1 "v" = Except.ok r ∧
      0 ≤ r.motion_percentage ∧ r.motion_percentage ≤ 100 := by
  obtain ⟨r, h1, _, h3, h4⟩ :=
    c4_amended {} id [0] [[255]] 2 30 none none 1 "v" rfl (by decide)
  exact ⟨r, h1, h3, h4⟩

/-- Witness for C1 at a concrete input (padding 2, minimum length 3, three
separated motion bursts in a 100-frame file at 30 fps). -/
theorem c1_segment_invariants_witness :
    List.Pairwise (fun a b => a.start_frame < b.start_frame ∧ a.end_frame < b.start_frame)
      (group_into_segments 2 3 [0, 1, 2, 40, 41, 42, 43, 80] 100 30) ∧
    ∀ s ∈ group_into_segments 2 3 [0, 1, 2, 40, 41, 42, 43, 80] 100 30,
      0 ≤ s.start_frame ∧ s.start_frame ≤ s.end_frame ∧ s.end_frame ≤ 100 - 1 :=
  c1_segment_invariants { padding_frames := 2, min_segment_frames := 3 }
    [0, 1, 2, 40, 41, 42, 43, 80] 100 30 (by decide) (by norm_num) (by norm_num)
    (by decide) (by decide)

/-! ### C5: no range validation -/

/-- C5 counterexample: a threshold of 300 — outside the documented 0–255
range — is not rejected before decoding: `detect_motion` runs the whole
analysis and returns a normal result. -/
theorem c5_counterexample :
    detect_motion {} id [[0], [255]] 2 30 (some 300) none 1 "v" =
      Except.ok { filename := "v"
                  total_frames := 2
                  fps := 30
                  duration_seconds := 1 / 15
                  segments := []
                  motion_percentage := 50 } := by
  with_unfolding_all rfl

/-- C5 amended: neither `detect_motion` nor `trim_to_motion` validates the
threshold or percentage parameters — any supplied values, in range or not, are
passed straight into the pixel arithmetic and the call proceeds through
decoding to a normal result on any video with at least one decodable frame. -/
theorem c5_amended (svc : MotionDetectionService) (prep : List ℕ → List ℕ)
    (f : List ℕ) (rest : List (List ℕ)) (total : ℕ) (fps0 : ℚ) (t : ℤ) (ma : ℚ)
    (step : ℕ) (inc : Bool) (orig out : ℚ) (name : String) :
    (∃ r, detect_motion svc prep (f :: rest) total fps0 (some t) (some ma) step name =
      Except.ok r) ∧
    ∃ w, trim_to_motion svc prep (f :: rest) total fps0 (some t) (some ma) inc orig out name =
      Except.ok w := by
  obtain ⟨r, hr⟩ : ∃ r, detect_motion svc prep (f :: rest) total fps0 (some t)
      (some ma) 1 name = Except.ok r := ⟨_, rfl⟩
  refine ⟨⟨_, rfl⟩, ?_⟩
  unfold trim_to_motion
  rw [hr]
  by_cases hemp : r.segments.isEmpty = true
  · simp [hemp]
  · simp [hemp]

/-! ### C6: explicit zero parameters fall back to the defaults -/

/-- C6 counterexample: supplying `threshold = 0` (a valid value of the 0–255
range) together with `min_area_percent = 100` does not make the detector use
the supplied threshold: Python `or` treats `0` as absent, the default 25 is
used, and the reported percentage is 0 instead of the 50 that the spec's
resolution rule produces. -/
theorem c6_counterexample :
    pctOf (detect_motion {} id [[10], [15]] 2 30 (some 0) (some 100) 1 "v") = 0 ∧
    pctOf (detectMotionSpecResolution {} id [[10], [15]] 2 30 (some 0) (some 100) 1 "v") = 50 :=
  ⟨by with_unfolding_all rfl, by with_unfolding_all rfl⟩

/-- C6 amended: the supplied values are used exactly whenever they are nonzero;
a supplied `0`/`0.0` falls back to the service default (Python `or`
truthiness), so `detect_motion` agrees with the spec's resolution rule only on
nonzero explicit parameters. -/
theorem c6_amended (svc : MotionDetectionService) (prep : List ℕ → List ℕ)
    (frames : List (List ℕ)) (total : ℕ) (fps0 : ℚ) (t : ℤ) (ma : ℚ)
    (step : ℕ) (name : String) (ht : t ≠ 0) (hma : ma ≠ 0) :
    detect_motion svc prep frames total fps0 (some t) (some ma) step name =
      detectMotionSpecResolution svc prep frames total fps0 (some t) (some ma) step name := by
  unfold detect_motion detectMotionSpecResolution
  simp [pyOrInt, pyOrQ, ht, hma]

/-- Witness for the amended C6 at a concrete nonzero input. -/
theorem c6_amended_witness :
    detect_motion {} id [[10], [15]] 2 30 (some 7) (some 3) 1 "v" =
      detectMotionSpecResolution {} id [[10], [15]] 2 30 (some 7) (some 3) 1 "v" :=
  c6_amended {} id [[10], [15]] 2 30 7 3 1 "v" (by norm_num) (by norm_num)

/-! ### C7: empty segment list short-circuits the trim -/

/-- C7: whenever the motion analysis inside `trim_to_motion` yields an empty
segment list, the call returns the `status = "no_motion"` dictionary and the
trimming/encoding path is never entered — the write trace is `none`, i.e. no
output container is created and no output file is written. -/
theorem c7_no_motion_short_circuit (svc : MotionDetectionService)
    (prep : List ℕ → List ℕ) (frames : List (List ℕ)) (total : ℕ) (fps0 : ℚ)
    (t? : Option ℤ) (m? : Option ℚ) (inc : Bool) (orig out : ℚ) (name : String)
    (analysis : MotionAnalysisResult)
    (hd : detect_motion svc prep frames total fps0 t? m? 1 name = Except.ok analysis)
    (hs : analysis.segments = []) :
    trim_to_motion svc prep frames total fps0 t? m? inc orig out name =
      Except.ok (TrimOutcome.no_motion name "No motion segments detected", none) := by
  unfold trim_to_motion
  rw [hd]
  simp [hs]

/-- Witness for C7: a three-frame all-black video (two pixels per frame,
`min_area_percent = 50`) detects no motion and the trim call returns
`no_motion` with no write. -/
theorem c7_witness :
    trim_to_motion {} id [[0, 0], [0, 0], [0, 0]] 3 30 none (some 50)
        true 1 1 "v" =
      Except.ok (TrimOutcome.no_motion "v" "No motion segments detected", none) :=
  c7_no_motion_short_circuit {} id [[0, 0], [0, 0], [0, 0]] 3 30
    none (some 50) true 1 1 "v"
    { filename := "v"
      total_frames := 3
      fps := 30
      duration_seconds := 1 / 10
      segments := []
      motion_percentage := 0 }
    (by with_unfolding_all rfl) rfl

/-! ### C8: reduction percent is not clamped -/

/-- C8 counterexample: a completed trim whose output file (2 MB) is larger
than the original (1 MB) reports `reduction_percent = -100`, which is
negative — the claimed clamping does not exist in the code. -/
theorem c8_counterexample :
    isCompleted (trim_to_motion {} id [[0], [255], [0], [255], [0], [255], [0], [255]]
      8 30 none none true 1 2 "v") = true ∧
    reductionOf (trim_to_motion {} id [[0], [255], [0], [255], [0], [255], [0], [255]]
      8 30 none none true 1 2 "v") = -100 ∧
    (-100 : ℚ) < 0 :=
  ⟨by with_unfolding_all rfl, by with_unfolding_all rfl, by norm_num⟩

/-- C8 amended: every completed `trim_to_motion` result reports
`reduction_percent = round((1 - output_size / original_size) * 100, 1)` when
the original size is positive, and `0` otherwise; the value is not clamped, so
it is negative for outputs sufficiently larger than the original. -/
theorem c8_amended (svc : MotionDetectionService) (prep : List ℕ → List ℕ)
    (frames : List (List ℕ)) (total : ℕ) (fps0 : ℚ) (t? : Option ℤ)
    (m? : Option ℚ) (inc : Bool) (orig out : ℚ) (name : String)
    (sc fw : ℕ) (ds osz outsz rp : ℚ) (w : Option (List (List ℕ)))
    (h : trim_to_motion svc prep frames total fps0 t? m? inc orig out name =
      Except.ok (TrimOutcome.completed sc fw ds osz outsz rp, w)) :
    rp = if 0 < orig then pyRound 1 ((1 - out / orig) * 100) else 0 := by
  unfold trim_to_motion at h
  split at h
  · exact absurd h (by simp)
  · split at h
    · exact absurd h (by simp)
    · simp only [Except.ok.injEq, Prod.mk.injEq, TrimOutcome.completed.injEq] at h
      exact h.1.2.2.2.2.2.symm

/-- Witness for the amended C8 at the concrete oversized-output run. -/
theorem c8_amended_witness :
    (-100 : ℚ) = if 0 < (1 : ℚ) then pyRound 1 ((1 - 2 / 1) * 100) else 0 :=
  c8_amended {} id [[0], [255], [0], [255], [0], [255], [0], [255]] 8 30 none none
    true 1 2 "v" 1 8 (27 / 100) 1 2 (-100)
    (some [[0], [255], [0], [255], [0], [255], [0], [255]])
    (by with_unfolding_all rfl)

/-! ### C2: post-processing extraction (spec-modelled) -/

theorem regionEnd_mem (gt : ℕ) :
    ∀ (rest : List ℕ) (cur : ℕ), regionEnd gt cur rest ∈ cur :: rest := by
  intro rest
  induction rest with
  | nil => intro cur; simp [regionEnd]
  | cons i rest ih =>
    intro cur
    simp only [regionEnd]
    split
    · exact List.mem_cons_of_mem cur (ih i)
    · exact List.mem_cons_self cur _

theorem brightIndicesAux_spec (bt : ℤ) (mbp : ℚ) :
    ∀ (fs : List (List ℕ)) (idx m : ℕ), m ∈ brightIndicesAux bt mbp idx fs →
      idx ≤ m ∧ ∃ f, fs[m - idx]? = some f ∧ is_bright_frame bt mbp f = true := by
  intro fs
  induction fs with
  | nil => intro idx m hm; simp [brightIndicesAux] at hm
  | cons f rest ih =>
    intro idx m hm
    simp only [brightIndicesAux] at hm
    split at hm
    · next hb =>
      rcases List.mem_cons.mp hm with h | h
      · subst h
        exact ⟨le_refl _, f, by simp, hb⟩
      · obtain ⟨hle, g, hg, hbg⟩ := ih (idx + 1) m h
        refine ⟨by omega, g, ?_, hbg⟩
        have hsub : m - idx = (m - (idx + 1)) + 1 := by omega
        rw [hsub]
        simpa using hg
    · obtain ⟨hle, g, hg, hbg⟩ := ih (idx + 1) m hm
      refine ⟨by omega, g, ?_, hbg⟩
      have hsub : m - idx = (m - (idx + 1)) + 1 := by omega
      rw [hsub]
      simpa using hg

/-- C2 (spec-modelled): the post-processing extraction exists and, for every
input video, either returns the first frame index strictly after the detected
sustained bright region ends — trimming to the frames from that index on,
which is always a strict subset of the video, never a silent whole-video
copy — or fails with the `NoBrightRegionFound` domain error, which is distinct
from `NotFound` and `DecodeError`. -/
theorem c2_trim_to_post_processing (bt : ℤ) (mbp : ℚ) (gt : ℕ)
    (frames : List (List ℕ)) :
    (VideoError.NoBrightRegionFound ≠ VideoError.NotFound ∧
     VideoError.NoBrightRegionFound ≠ VideoError.DecodeError) ∧
    (find_post_processing_start bt mbp gt frames = none →
      trim_to_post_processing bt mbp gt frames =
        Except.error VideoError.NoBrightRegionFound) ∧
    (∀ c, find_post_processing_start bt mbp gt frames = some c →
      trim_to_post_processing bt mbp gt frames = Except.ok (c, frames.drop c) ∧
      1 ≤ c ∧ (frames.drop c).length < frames.length ∧
      ∃ f, frames[c - 1]? = some f ∧ is_bright_frame bt mbp f = true) := by
  refine ⟨⟨by simp, by simp⟩, ?_, ?_⟩
  · intro h
    unfold trim_to_post_processing
    rw [h]
  · intro c hc
    have htrim : trim_to_post_processing bt mbp gt frames = Except.ok (c, frames.drop c) := by
      unfold trim_to_post_processing
      rw [hc]
    refine ⟨htrim, ?_⟩
    unfold find_post_processing_start at hc
    cases hbi : bright_indices bt mbp frames with
    | nil => rw [hbi] at hc; exact absurd hc (by simp)
    | cons i rest =>
      rw [hbi] at hc
      simp only [Option.some.injEq] at hc
      have hmem : regionEnd gt i rest ∈ bright_indices bt mbp frames := by
        rw [hbi]; exact regionEnd_mem gt rest i
      obtain ⟨-, f, hf, hbf⟩ := brightIndicesAux_spec bt mbp frames 0 _ hmem
      rw [Nat.sub_zero] at hf
      have hlt : regionEnd gt i rest < frames.length := by
        obtain ⟨hl, -⟩ := List.getElem?_eq_some.mp hf
        exact hl
      subst hc
      refine ⟨Nat.le_add_left 1 _, ?_, f, ?_, hbf⟩
      · rw [List.length_drop]
        omega
      · simpa using hf

/-- Witness for C2: an all-dark two-frame video has no bright region and the
extraction reports the `NoBrightRegionFound` domain error. -/
theorem c2_witness :
    trim_to_post_processing 150 2 5 [List.replicate 100 0, List.replicate 100 0] =
      Except.error VideoError.NoBrightRegionFound :=
  (c2_trim_to_post_processing 150 2 5
      [List.replicate 100 0, List.replicate 100 0]).2.1 (by with_unfolding_all rfl)

/-! ### C10: input-path resolution -/

/-- C10 counterexample: a bare relative filename that happens to exist
relative to the process working directory is used as given — the recordings
directory is not prefixed, so the claim's "never the working directory"
consequence fails. -/
theorem c10_counterexample :
    resolve_path (fun q => q == ⟨false, ["a.mp4"]⟩) ⟨false, ["recordings"]⟩
        ⟨false, ["a.mp4"]⟩ = ⟨false, ["a.mp4"]⟩ ∧
    (⟨false, ["a.mp4"]⟩ : PyPath) ≠
      joinPath ⟨false, ["recordings"]⟩ ⟨false, ["a.mp4"]⟩ := by
  constructor
  · with_unfolding_all rfl
  · decide

/-- C10 amended: an absolute path, or a relative path that exists relative to
the working directory, is used as given; every other relative path is resolved
by prefixing the recordings directory — so a bare filename that does not
already exist in the working directory is read from the recordings
directory. -/
theorem c10_amended (exists_fn : PyPath → Bool) (recordings_dir p : PyPath) :
    (p.is_absolute = true ∨ exists_fn p = true →
      resolve_path exists_fn recordings_dir p = p) ∧
    (p.is_absolute = false → exists_fn p = false →
      resolve_path exists_fn recordings_dir p = joinPath recordings_dir p) := by
  constructor
  · intro h
    unfold resolve_path
    rcases h with h | h <;> simp [h]
  · intro h1 h2
    unfold resolve_path
    simp [h1, h2]

/-- Witness for the amended C10: with an empty filesystem, a bare filename is
resolved into the recordings directory. -/
theorem c10_amended_witness :
    resolve_path (fun _ => false) ⟨false, ["recordings"]⟩ ⟨false, ["clip.mp4"]⟩ =
      joinPath ⟨false, ["recordings"]⟩ ⟨false, ["clip.mp4"]⟩ :=
  (c10_amended (fun _ => false) ⟨false, ["recordings"]⟩ ⟨false, ["clip.mp4"]⟩).2 rfl rfl

end WeldingDetector
